import Mathlib

/-!
Verification development for the llmud repository.

The repository ships a TypeScript chat client (`chat-client/src/*.ts`) and a
README documenting an MCP game server.  The client code (JSON-schema to Zod
conversion, model-provider detection, the game agent's chat loop) is embedded
directly from the TypeScript sources.  The game server itself
(`rpg-dm-tools/rpg_server.py`: dice engine, map graph, character store,
session manager) is referenced by the README and the specification but its
source is not part of the checked tree, so those components are modelled
from the specification text and marked as such on each definition.
-/

namespace LlMud

/-! ## Dice Engine

Modelled from the spec: the dice engine of `rpg-dm-tools/rpg_server.py` is not
under `src/`; definitions follow §4.1 of the specification (grammar
`[count] "d" faces [("+"|"-") modifier]`, a sequence of signed dice-or-constant
terms, case-insensitive and whitespace-insignificant, `count` defaulting to 1,
`faces ≥ 2`, `count ≤ 1000`, uniform draws in `[1, faces]` from an injected
randomness source, unsigned breakdown, signed total).
-/

/-- Modelled from the spec: a single term of a dice expression — either a
dice group `(count, faces)` or a constant. -/
inductive Term where
  | dice (count faces : Nat) : Term
  | const (value : Nat) : Term
deriving DecidableEq, Repr

/-- Modelled from the spec: a term together with the sign it carries in the
expression (`pos = true` for `+`). -/
structure SignedTerm where
  pos : Bool
  term : Term
deriving DecidableEq, Repr

/-- Modelled from the spec: the typed failure of the dice engine
(`InvalidNotation` in the spec's terms), carrying the offending substring. -/
structure DiceError where
  offending : String
deriving DecidableEq, Repr

/-- Modelled from the spec: the resolved outcome of a dice expression —
the ordered unsigned breakdown, the (signed) constant modifier, and the
computed total. -/
structure RollResult where
  rolls : List Nat
  modifier : Int
  total : Int
deriving DecidableEq, Repr

/-- ASCII decimal digit test. -/
def isDigitC (c : Char) : Bool :=
  decide ('0' ≤ c) && decide (c ≤ '9')

/-- Whitespace test (space, tab, newline, carriage return). -/
def isSpaceC (c : Char) : Bool :=
  c = ' ' || c = '\t' || c = '\n' || c = '\r'

/-- ASCII lower-casing of a single character. -/
def lowerC (c : Char) : Char :=
  if decide ('A' ≤ c) && decide (c ≤ 'Z') then Char.ofNat (c.toNat + 32) else c

/-- Modelled from the spec: normalisation making the grammar case-insensitive
and whitespace-insignificant — drop whitespace, lower-case the rest. -/
def normalize (s : String) : List Char :=
  (s.data.filter (fun c => !isSpaceC c)).map lowerC

/-- Split a leading run of digits off a character list. -/
def takeDigits : List Char → List Char × List Char
  | [] => ([], [])
  | c :: cs =>
    if isDigitC c then
      let p := takeDigits cs
      (c :: p.1, p.2)
    else ([], c :: cs)

/-- Numeric value of a digit character. -/
def digitVal (c : Char) : Nat := c.toNat - 48

/-- Decimal value of a digit run (accumulator form). -/
def digitsToNat (acc : Nat) : List Char → Nat
  | [] => acc
  | c :: cs => digitsToNat (acc * 10 + digitVal c) cs

/-- Modelled from the spec: the sane upper bound on a term's dice count. -/
def maxDiceCount : Nat := 1000

/-- Modelled from the spec: parse one term (`[count] "d" faces` or a bare
constant) off the front of the normalised input, validating `count ≥ 1`,
`count ≤ 1000` and `faces ≥ 2`, and reporting the offending substring on
failure. -/
def parseTerm (cs : List Char) : Except DiceError (Term × List Char) :=
  match takeDigits cs with
  | (ds, 'd' :: rest) =>
    let count := if ds.isEmpty then 1 else digitsToNat 0 ds
    let q := takeDigits rest
    if q.1.isEmpty then Except.error ⟨String.mk (ds ++ 'd' :: q.2)⟩
    else if count < 1 then Except.error ⟨String.mk ds⟩
    else if maxDiceCount < count then Except.error ⟨String.mk ds⟩
    else if digitsToNat 0 q.1 < 2 then Except.error ⟨String.mk q.1⟩
    else Except.ok (Term.dice count (digitsToNat 0 q.1), q.2)
  | (ds, rest) =>
    if ds.isEmpty then Except.error ⟨String.mk rest⟩
    else Except.ok (Term.const (digitsToNat 0 ds), rest)

/-- Modelled from the spec: parse the remaining `("+"|"-") term` groups.
`fuel` bounds the recursion; it is always sufficient because each group
consumes at least the sign character. -/
def parseRest : Nat → List Char → Except DiceError (List SignedTerm)
  | _, [] => Except.ok []
  | 0, cs => Except.error ⟨String.mk cs⟩
  | fuel + 1, c :: cs =>
    if c = '+' || c = '-' then
      match parseTerm cs with
      | Except.error e => Except.error e
      | Except.ok (t, rest) =>
        match parseRest fuel rest with
        | Except.error e => Except.error e
        | Except.ok ts => Except.ok (⟨c = '+', t⟩ :: ts)
    else Except.error ⟨String.mk (c :: cs)⟩

/-- Modelled from the spec: parse a full normalised dice expression — a first
(implicitly positive) term followed by signed groups. -/
def parseAll (cs : List Char) : Except DiceError (List SignedTerm) :=
  match parseTerm cs with
  | Except.error e => Except.error e
  | Except.ok (t, rest) =>
    match parseRest rest.length rest with
    | Except.error e => Except.error e
    | Except.ok ts => Except.ok (⟨true, t⟩ :: ts)

/-- Modelled from the spec: draw `count` uniform values in `[1, faces]` from
the injected randomness source `rng`, reading positions `idx, idx+1, …` so
draws happen in left-to-right term order. -/
def rollDice (rng : Nat → Nat) (idx count faces : Nat) : List Nat :=
  (List.range count).map (fun i => 1 + rng (idx + i) % faces)

/-- Modelled from the spec: evaluate a parsed term sequence — the breakdown
records unsigned face values in roll order, the modifier accumulates signed
constants, and the total applies each term's sign. Returns
`(rolls, modifier, total)`. -/
def evalTerms (rng : Nat → Nat) : Nat → List SignedTerm → List Nat × Int × Int
  | _, [] => ([], 0, 0)
  | idx, st :: rest =>
    match st.term with
    | Term.dice c f =>
      let vals := rollDice rng idx c f
      let sgn : Int := if st.pos then 1 else -1
      let r := evalTerms rng (idx + c) rest
      (vals ++ r.1, r.2.1, sgn * (vals.sum : Int) + r.2.2)
    | Term.const v =>
      let sgn : Int := if st.pos then 1 else -1
      let r := evalTerms rng idx rest
      (r.1, sgn * v + r.2.1, sgn * v + r.2.2)

/-- Modelled from the spec: §4.1 contract `evaluate(notation, rng)`. -/
def evaluate (s : String) (rng : Nat → Nat) : Except DiceError RollResult :=
  match parseAll (normalize s) with
  | Except.error e => Except.error e
  | Except.ok sts =>
    let r := evalTerms rng 0 sts
    Except.ok ⟨r.1, r.2.1, r.2.2⟩

/-- Decimal digit character for `d < 10`. -/
def digitChar (d : Nat) : Char := Char.ofNat (48 + d)

/-- Decimal representation of a natural number as a character list. -/
def natReprL (n : Nat) : List Char :=
  if h : n < 10 then [digitChar n]
  else
    have : n / 10 < n := Nat.div_lt_self (by omega) (by omega)
    natReprL (n / 10) ++ [digitChar (n % 10)]

/-- The canonical `NdM+K` dice string built from the three numbers. -/
def ndmk (N M K : Nat) : String :=
  String.mk (natReprL N ++ 'd' :: natReprL M ++ '+' :: natReprL K)

/-! ## Shared association-list primitives -/

/-- First-match association-list lookup. -/
def lookupA {κ α : Type} [DecidableEq κ] : List (κ × α) → κ → Option α
  | [], _ => none
  | (k, v) :: rest, key => if k = key then some v else lookupA rest key

/-- Replace the value at the first matching key; no-op when the key is
absent. -/
def setA {κ α : Type} [DecidableEq κ] : List (κ × α) → κ → α → List (κ × α)
  | [], _, _ => []
  | (k, v) :: rest, key, nv =>
    if k = key then (k, nv) :: rest else (k, v) :: setA rest key nv

/-! ## Map Graph

Modelled from the spec: the map graph of `rpg-dm-tools/rpg_server.py` is not
under `src/`; definitions follow §4.2 of the specification (locations with a
direction table, `neighbor` as a direct mapping lookup, `InvalidMove` naming
the current location and its valid directions). -/

/-- Modelled from the spec: the typed failures of the state engine
(`NotFound`, `InvalidPatch`, `InvalidMove`, `DuplicateId` in the spec's
terms). -/
inductive StoreError where
  | notFound (id kind : String) : StoreError
  | invalidPatch (field reason : String) : StoreError
  | invalidMove (locId : String) (validDirections : List String) : StoreError
  | duplicateId (id : String) : StoreError
deriving DecidableEq, Repr

/-- Modelled from the spec: a node of the map graph. -/
structure Location where
  id : String
  name : String
  description : String
  exits : List (String × String)
deriving DecidableEq, Repr

/-- The identifier-keyed location table of the map graph. -/
abbrev MapGraph := List (String × Location)

/-- Modelled from the spec: §4.2 `neighbor` — resolve a direction from a
location via its direction table; invalid directions yield `InvalidMove`
carrying the current location and its valid directions. -/
def neighbor (g : MapGraph) (locId dir : String) : Except StoreError Location :=
  match lookupA g locId with
  | none => Except.error (StoreError.notFound locId "location")
  | some loc =>
    match lookupA loc.exits dir with
    | none => Except.error (StoreError.invalidMove locId (loc.exits.map (fun e => e.1)))
    | some targetId =>
      match lookupA g targetId with
      | none => Except.error (StoreError.notFound targetId "location")
      | some t => Except.ok t

/-! ## Character Store

Modelled from the spec: the character store of `rpg-dm-tools/rpg_server.py`
is not under `src/`; definitions follow §4.3 of the specification (open
stat mapping, ordered inventory with duplicates, non-negative gold, atomic
patches, movement delegating to the map graph). -/

/-- Modelled from the spec: a character-sheet record. -/
structure Character where
  name : String
  stats : List (String × Int)
  inventory : List String
  gold : Int
  location : String
deriving DecidableEq, Repr

/-- The identifier-keyed character table of the store. -/
abbrev CharStore := List (String × Character)

/-- Modelled from the spec: a partial update — stat deltas, absolute stat
sets, inventory add/remove, gold delta, location set. -/
structure Patch where
  statDeltas : List (String × Int)
  statSets : List (String × Int)
  addItems : List String
  removeItems : List String
  goldDelta : Option Int
  setLocation : Option String
deriving DecidableEq, Repr

/-- Current value of a stat, defaulting to 0 for an unset name. -/
def getStat (stats : List (String × Int)) (k : String) : Int :=
  (lookupA stats k).getD 0

/-- Set a stat, inserting the name if it is new. -/
def setStat (stats : List (String × Int)) (k : String) (v : Int) :
    List (String × Int) :=
  match lookupA stats k with
  | some _ => setA stats k v
  | none => stats ++ [(k, v)]

/-- Apply all stat deltas of a patch, in order. -/
def applyDeltas (stats : List (String × Int)) (ds : List (String × Int)) :
    List (String × Int) :=
  ds.foldl (fun st kv => setStat st kv.1 (getStat st kv.1 + kv.2)) stats

/-- Apply all absolute stat sets of a patch, in order. -/
def applySets (stats : List (String × Int)) (ss : List (String × Int)) :
    List (String × Int) :=
  ss.foldl (fun st kv => setStat st kv.1 kv.2) stats

/-- Remove one occurrence of an item; `none` when the item is absent. -/
def removeOne : List String → String → Option (List String)
  | [], _ => none
  | x :: xs, it =>
    if x = it then some xs else (removeOne xs it).map (fun ys => x :: ys)

/-- Remove the requested items one by one; `none` as soon as one is absent. -/
def removeAll (inv : List String) (its : List String) : Option (List String) :=
  its.foldl (fun acc it => acc.bind (fun i => removeOne i it)) (some inv)

/-- The gold balance a patch would leave. -/
def goldAfter (c : Character) (p : Patch) : Int :=
  c.gold + p.goldDelta.getD 0

/-- Modelled from the spec: validate and apply a whole patch to one
character, failing with `InvalidPatch` when gold would go negative or a
removed inventory item is not present; no partial application. -/
def applyPatch (c : Character) (p : Patch) : Except StoreError Character :=
  if goldAfter c p < 0 then
    Except.error (StoreError.invalidPatch "gold" "gold cannot go negative")
  else
    match removeAll c.inventory p.removeItems with
    | none => Except.error (StoreError.invalidPatch "inventory" "removed item not present")
    | some inv1 =>
      Except.ok { c with
        stats := applySets (applyDeltas c.stats p.statDeltas) p.statSets,
        inventory := inv1 ++ p.addItems,
        gold := goldAfter c p,
        location := p.setLocation.getD c.location }

/-- Modelled from the spec: §4.3 `create` — rejects a caller-supplied
identifier collision with `DuplicateId`. -/
def createChar (store : CharStore) (id : String) (c : Character) :
    Except StoreError CharStore :=
  match lookupA store id with
  | some _ => Except.error (StoreError.duplicateId id)
  | none => Except.ok ((id, c) :: store)

/-- Modelled from the spec: §4.3 `update` — atomic patch application; the
returned store is unchanged on any failure. -/
def updateChar (store : CharStore) (id : String) (p : Patch) :
    Except StoreError Character × CharStore :=
  match lookupA store id with
  | none => (Except.error (StoreError.notFound id "character"), store)
  | some c =>
    match applyPatch c p with
    | Except.error e => (Except.error e, store)
    | Except.ok c2 => (Except.ok c2, setA store id c2)

/-- Modelled from the spec: §4.3 `move` — delegates to the map graph's
`neighbor` from the character's current location; updates the location on
success only. -/
def moveChar (g : MapGraph) (store : CharStore) (id dir : String) :
    Except StoreError Location × CharStore :=
  match lookupA store id with
  | none => (Except.error (StoreError.notFound id "character"), store)
  | some c =>
    match neighbor g c.location dir with
    | Except.error e => (Except.error e, store)
    | Except.ok loc => (Except.ok loc, setA store id { c with location := loc.id })

/-! ## Session Manager

Modelled from the spec: the session manager of `rpg-dm-tools/rpg_server.py`
is not under `src/`; definitions follow §4.4 of the specification (sessions
with a participant set and a lazily-resolved location, idempotent `join`,
snapshot state reads). -/

/-- Modelled from the spec: a session record; `location = none` until it is
resolved lazily on a state read. -/
structure Session where
  createdAt : Nat
  participants : List String
  location : Option String
deriving DecidableEq, Repr

/-- Modelled from the spec: the read-only composed view returned by
`get_session_state` — participant character snapshots plus the current
location. -/
structure SessionState where
  participants : List Character
  location : String
deriving DecidableEq, Repr

/-- Modelled from the spec: the session manager's own state — the session
table and the next fresh identifier. -/
structure Manager where
  sessions : List (Nat × Session)
  nextId : Nat
deriving DecidableEq, Repr

/-- Modelled from the spec: the configured starting location a fresh
session's unset location resolves to. -/
def defaultStartLocation : String := "Willowdale Village"

/-- Modelled from the spec: §4.4 `create_session` — allocates a session with
no participants and an unset location. -/
def createSession (m : Manager) (now : Nat) : Nat × Manager :=
  (m.nextId,
   { sessions := (m.nextId, { createdAt := now, participants := [], location := none }) :: m.sessions,
     nextId := m.nextId + 1 })

/-- Modelled from the spec: §4.4 `get_state` — a snapshot view; an unset
location reads as the configured starting location. -/
def getSessionState (m : Manager) (store : CharStore) (sid : Nat) :
    Except StoreError SessionState :=
  match lookupA m.sessions sid with
  | none => Except.error (StoreError.notFound (toString sid) "session")
  | some s =>
    Except.ok { participants := s.participants.filterMap (fun cid => lookupA store cid),
                location := s.location.getD defaultStartLocation }

/-- Modelled from the spec: §4.4 `join` — `NotFound` when either id is
absent; adding an already-present participant is a no-op, not an error. -/
def joinSession (m : Manager) (store : CharStore) (sid : Nat) (cid : String) :
    Except StoreError Manager :=
  match lookupA m.sessions sid with
  | none => Except.error (StoreError.notFound (toString sid) "session")
  | some s =>
    match lookupA store cid with
    | none => Except.error (StoreError.notFound cid "character")
    | some _ =>
      if cid ∈ s.participants then Except.ok m
      else Except.ok { m with
        sessions := setA m.sessions sid { s with participants := cid :: s.participants } }

/-- Modelled from the spec: §4.4 `move` — resolves via the map graph against
the session's current location, updating it on success only. -/
def moveSession (m : Manager) (g : MapGraph) (sid : Nat) (dir : String) :
    Except StoreError (Location × Manager) :=
  match lookupA m.sessions sid with
  | none => Except.error (StoreError.notFound (toString sid) "session")
  | some s =>
    match neighbor g (s.location.getD defaultStartLocation) dir with
    | Except.error e => Except.error e
    | Except.ok loc =>
      Except.ok (loc, { m with
        sessions := setA m.sessions sid { s with location := some loc.id } })

/-! ## Chat client: model-provider detection

Embedded from `detectModelConfig` in the CLI entry point
(`src/unnamed/part_001`, the client's `index.ts`).  Environment variables are
modelled as `Option String`; JavaScript's `!!value` truthiness on an
environment variable is false exactly for an unset variable or the empty
string. -/

/-- The client's `ModelProvider` union type. -/
inductive Provider where
  | openai : Provider
  | anthropic : Provider
  | openrouter : Provider
deriving DecidableEq, Repr

/-- The environment variables read by `detectModelConfig`. -/
structure Env where
  llmProvider : Option String
  llmModel : Option String
  anthropicApiKey : Option String
  openaiApiKey : Option String
  openrouterApiKey : Option String
deriving DecidableEq, Repr

/-- JavaScript `!!` truthiness of an environment variable: false for unset
or empty. -/
def truthy : Option String → Bool
  | none => false
  | some s => !(s = "")

/-- ASCII lower-casing of a string (`String.prototype.toLowerCase` on the
ASCII provider names involved). -/
def toLowerStr (s : String) : String := String.mk (s.data.map lowerC)

/-- Embedded from `detectModelConfig` (`src/unnamed/part_001`): explicit
`LLM_PROVIDER` wins; otherwise the provider is auto-detected from which API
keys are set, falling back to `openai`. -/
def detectModelConfig (env : Env) : Provider × Option String :=
  let explicitProvider := env.llmProvider.map toLowerStr
  let explicitModel := env.llmModel
  if explicitProvider = some "anthropic" then (Provider.anthropic, explicitModel)
  else if explicitProvider = some "openai" then (Provider.openai, explicitModel)
  else if explicitProvider = some "openrouter" then (Provider.openrouter, explicitModel)
  else
    let hasAnthropic := truthy env.anthropicApiKey
    let hasOpenAI := truthy env.openaiApiKey
    let hasOpenRouter := truthy env.openrouterApiKey
    if hasAnthropic && !hasOpenAI then (Provider.anthropic, explicitModel)
    else if hasOpenAI && !hasAnthropic then (Provider.openai, explicitModel)
    else if hasOpenRouter && !hasAnthropic && !hasOpenAI then (Provider.openrouter, explicitModel)
    else if hasAnthropic && hasOpenAI && hasOpenRouter then (Provider.anthropic, explicitModel)
    else (Provider.openai, explicitModel)

/-! ## Chat client: the game agent's chat loop

Embedded from `createGameAgent().chat` in `src/chat-client/src/agent.ts`
(the variant in `src/unnamed/part_001` differs only in debug logging).  The
LangChain message classes are modelled as `ChatMsg`; the agent stream — an
external collaborator — is injected as its outcome: either the list of new
messages it produced, or the error it threw during construction or
iteration.  `chat` pushes the `HumanMessage` onto the history *before*
invoking the stream and appends the new messages only after iteration
completes, so a thrown error leaves the history holding the human message
alone. -/

/-- A chat-history message (LangChain `HumanMessage` / `AIMessage` /
`ToolMessage`). -/
inductive ChatMsg where
  | human (content : String) : ChatMsg
  | ai (content : String) (hasToolCalls : Bool) : ChatMsg
  | toolMsg (name content : String) : ChatMsg
deriving DecidableEq, Repr

/-- Whether a message is an assistant (`AIMessage`) message. -/
def isAiMsg : ChatMsg → Bool
  | ChatMsg.ai _ _ => true
  | _ => false

/-- Embedded from `chat`'s stream loop: the final response is the last
non-empty `AIMessage` text that carries no tool calls. -/
def finalResponseOf (msgs : List ChatMsg) : String :=
  msgs.foldl (fun acc m =>
    match m with
    | ChatMsg.ai t false => if t = "" then acc else t
    | _ => acc) ""

/-- Embedded from `createGameAgent().chat`
(`src/chat-client/src/agent.ts:98-177`): push the human message, run the
injected stream outcome, and extend the history with the streamed messages
only on success. Returns the response (or propagated error) and the
history afterwards. -/
def chatStep (history : List ChatMsg) (message : String)
    (streamOutcome : Except String (List ChatMsg)) :
    Except String String × List ChatMsg :=
  let pushed := history ++ [ChatMsg.human message]
  match streamOutcome with
  | Except.error e => (Except.error e, pushed)
  | Except.ok newMessages => (Except.ok (finalResponseOf newMessages), pushed ++ newMessages)

/-! ## Chat client: JSON Schema to Zod conversion

Embedded from `jsonSchemaToZod` in `src/unnamed/part_001` (the client's
`mcp-tools.ts`).  JSON values are the `Json` inductive; the produced Zod
schemas are the `Zod` inductive, with `describe` metadata carried as the
JSON value `schema.description || ""` evaluates to.  `schema.required || []`
keeps truthy non-array values, and `required.includes(key)` is modelled with
JavaScript's semantics: array membership under `===`, substring search on a
string receiver, and a thrown `TypeError` on any other receiver — so the
conversion returns `Except`, the error being the thrown exception. -/

/-- A JSON value, as handled by `jsonSchemaToZod`. -/
inductive Json where
  | null : Json
  | bool (b : Bool) : Json
  | num (n : Int) : Json
  | str (s : String) : Json
  | arr (elements : List Json) : Json
  | obj (fields : List (String × Json)) : Json

/-- A Zod schema as built by `jsonSchemaToZod`: `zobject` entries are
`(name, schema, optional)`; `desc` is the value passed to `.describe`. -/
inductive Zod where
  | any : Zod
  | zstring (desc : Json) : Zod
  | znumber (desc : Json) : Zod
  | zboolean (desc : Json) : Zod
  | zarray (elem : Zod) (desc : Json) : Zod
  | zobject (shape : List (String × Zod × Bool)) (desc : Json) : Zod
  | zrecord (desc : Json) : Zod

/-- JavaScript truthiness of a JSON value (`NaN` and `undefined` are not
representable; an absent field is handled at each use site). Note that an
empty array and every object are truthy. -/
def truthyJson : Json → Bool
  | Json.null => false
  | Json.bool b => b
  | Json.num n => n != 0
  | Json.str s => s != ""
  | Json.arr _ => true
  | Json.obj _ => true

/-- JavaScript `===` comparison of a JSON value against a string key, as
`Array.prototype.includes` performs it on a string argument. -/
def jsonEqStr (j : Json) (s : String) : Bool :=
  match j with
  | Json.str t => t = s
  | _ => false

/-- `required.includes(key)` when `required` is an array. -/
def reqContains (req : List Json) (k : String) : Bool :=
  req.any (fun j => jsonEqStr j k)

/-- Whether `needle` occurs at the start of `hay`. -/
def leadsWith : List Char → List Char → Bool
  | _, [] => true
  | [], _ :: _ => false
  | c :: cs, d :: ds => c = d && leadsWith cs ds

/-- JavaScript `String.prototype.includes`: substring occurrence. -/
def strIncludes : List Char → List Char → Bool
  | [], needle => needle.isEmpty
  | c :: t, needle => leadsWith (c :: t) needle || strIncludes t needle

/-- `required.includes(key)` under JavaScript semantics: an array tests
`===` membership, a string tests substring occurrence, and any other
receiver has no `includes` method — the call throws a `TypeError`. -/
def jsIncludes (required : Json) (key : String) : Except String Bool :=
  match required with
  | Json.arr xs => Except.ok (reqContains xs key)
  | Json.str s => Except.ok (strIncludes s.data key.data)
  | _ => Except.error "TypeError: required.includes is not a function"

/-- `schema.description || ""`: a falsy value reads as the empty string, a
truthy value passes through to `.describe(...)` unchanged. -/
def descOf (fields : List (String × Json)) : Json :=
  match lookupA fields "description" with
  | some v => if truthyJson v then v else Json.str ""
  | none => Json.str ""

/-- `schema.required || []`: a falsy value reads as the empty array, a
truthy value — array or not — passes through unchanged. -/
def requiredOf (fields : List (String × Json)) : Json :=
  match lookupA fields "required" with
  | some v => if truthyJson v then v else Json.arr []
  | none => Json.arr []

/-- Whether `schema.type` is one of the six recognised type strings of the
`switch`. -/
def knownType : Option Json → Bool
  | some (Json.str s) =>
    s = "string" || s = "number" || s = "integer" || s = "boolean" || s = "array" || s = "object"
  | _ => false

/-- A successful lookup returns a value strictly smaller than the list it
came from (termination measure for `jsonSchemaToZod`). -/
def lookupA_sizeOf {α : Type} [SizeOf α] :
    ∀ (l : List (String × α)) (key : String) (v : α),
      lookupA l key = some v → sizeOf v < 1 + sizeOf l := by
  intro l key v
  induction l with
  | nil => intro h; simp [lookupA] at h
  | cons p rest ih =>
    intro h
    match p with
    | (k, w) =>
      by_cases hk : k = key
      · simp [lookupA, hk] at h
        subst h
        simp
        omega
      · simp [lookupA, hk] at h
        have := ih h
        simp
        omega

mutual

/-- Embedded from `jsonSchemaToZod` (`src/unnamed/part_001:23-56`): non-object
inputs (and array inputs, whose `type` reads as `undefined`) yield `z.any()`;
object schemas dispatch on `type`; `array` recurses into `items || {}` (a
falsy or absent `items` reads as `{}`, whose conversion is `z.any()`);
`object` with truthy-object `properties` runs the property loop `convProps`
and wraps its result (or propagates its thrown error), falling back to
`z.record(z.any())` on falsy `properties`; every unrecognised `type` yields
`z.any()`.  The error case is a thrown JavaScript exception. -/
def jsonSchemaToZod : Json → Except String Zod
  | Json.obj fields =>
    match lookupA fields "type" with
    | some (Json.str "string") => Except.ok (Zod.zstring (descOf fields))
    | some (Json.str "number") => Except.ok (Zod.znumber (descOf fields))
    | some (Json.str "integer") => Except.ok (Zod.znumber (descOf fields))
    | some (Json.str "boolean") => Except.ok (Zod.zboolean (descOf fields))
    | some (Json.str "array") =>
      match hit : lookupA fields "items" with
      | some items =>
        if truthyJson items then
          match jsonSchemaToZod items with
          | Except.error e => Except.error e
          | Except.ok z => Except.ok (Zod.zarray z (descOf fields))
        else Except.ok (Zod.zarray Zod.any (descOf fields))
      | none => Except.ok (Zod.zarray Zod.any (descOf fields))
    | some (Json.str "object") =>
      match hpr : lookupA fields "properties" with
      | some (Json.obj props) =>
        match convProps (requiredOf fields) props with
        | Except.error e => Except.error e
        | Except.ok shape => Except.ok (Zod.zobject shape (descOf fields))
      | _ => Except.ok (Zod.zrecord (descOf fields))
    | _ => Except.ok Zod.any
  | _ => Except.ok Zod.any
termination_by j => sizeOf j
decreasing_by
  · have h := lookupA_sizeOf fields "items" items hit
    simp
    omega
  · have h1 := lookupA_sizeOf fields "properties" (Json.obj props) hpr
    simp at h1 ⊢
    omega

/-- Embedded from the property loop of `jsonSchemaToZod`'s `object` branch:
for each `[key, value]` entry in order, convert the value, then evaluate
`required.includes(key)` to decide optionality; either step's thrown error
aborts the whole conversion. -/
def convProps (required : Json) :
    List (String × Json) → Except String (List (String × Zod × Bool))
  | [] => Except.ok []
  | (k, v) :: rest =>
    match jsonSchemaToZod v with
    | Except.error e => Except.error e
    | Except.ok z =>
      match jsIncludes required k with
      | Except.error e => Except.error e
      | Except.ok inc =>
        match convProps required rest with
        | Except.error e => Except.error e
        | Except.ok shape => Except.ok ((k, z, !inc) :: shape)
termination_by l => sizeOf l
decreasing_by
  all_goals simp
  all_goals omega

end

/-! ## Helper lemmas -/

theorem takeDigits_append {ds rest : List Char}
    (hds : ∀ c ∈ ds, isDigitC c = true)
    (hrest : ∀ c cs, rest = c :: cs → isDigitC c = false) :
    takeDigits (ds ++ rest) = (ds, rest) := by
  induction ds with
  | nil =>
    simp only [List.nil_append]
    match rest with
    | [] => rfl
    | c :: cs => simp [takeDigits, hrest c cs rfl]
  | cons d ds ih =>
    have hd : isDigitC d = true := hds d (by simp)
    have := ih (fun c hc => hds c (by simp [hc]))
    simp [takeDigits, hd, this]

theorem digitsToNat_append (acc : Nat) (xs ys : List Char) :
    digitsToNat acc (xs ++ ys) = digitsToNat (digitsToNat acc xs) ys := by
  induction xs generalizing acc with
  | nil => rfl
  | cons c cs ih =>
    rw [List.cons_append]
    show digitsToNat (acc * 10 + digitVal c) (cs ++ ys) = _
    rw [ih]
    rfl

theorem digitChar_spec : ∀ d < 10,
    isDigitC (digitChar d) = true ∧ digitVal (digitChar d) = d ∧
    isSpaceC (digitChar d) = false ∧ lowerC (digitChar d) = digitChar d := by
  decide

theorem natReprL_ne_nil (n : Nat) : natReprL n ≠ [] := by
  rw [natReprL]
  split <;> simp

theorem natReprL_digits (n : Nat) : ∀ c ∈ natReprL n, isDigitC c = true := by
  induction n using Nat.strong_induction_on with
  | _ n ih =>
    rw [natReprL]
    split
    · intro c hc
      simp at hc
      subst hc
      exact (digitChar_spec n (by omega)).1
    · intro c hc
      simp at hc
      rcases hc with hc | hc
      · exact ih (n / 10) (Nat.div_lt_self (by omega) (by omega)) c hc
      · subst hc
        exact (digitChar_spec (n % 10) (Nat.mod_lt n (by omega))).1

theorem natReprL_plain (n : Nat) :
    ∀ c ∈ natReprL n, isSpaceC c = false ∧ lowerC c = c := by
  induction n using Nat.strong_induction_on with
  | _ n ih =>
    rw [natReprL]
    split
    · next h =>
      intro c hc
      simp at hc
      subst hc
      exact ⟨(digitChar_spec n h).2.2.1, (digitChar_spec n h).2.2.2⟩
    · next h =>
      intro c hc
      simp at hc
      rcases hc with hc | hc
      · exact ih (n / 10) (Nat.div_lt_self (by omega) (by omega)) c hc
      · subst hc
        have := digitChar_spec (n % 10) (Nat.mod_lt n (by omega))
        exact ⟨this.2.2.1, this.2.2.2⟩

theorem digitsToNat_natReprL (n : Nat) : digitsToNat 0 (natReprL n) = n := by
  induction n using Nat.strong_induction_on with
  | _ n ih =>
    rw [natReprL]
    split
    · next h =>
      have hd := (digitChar_spec n h).2.1
      show 0 * 10 + digitVal (digitChar n) = n
      rw [hd]
      omega
    · next h =>
      rw [digitsToNat_append, ih (n / 10) (Nat.div_lt_self (by omega) (by omega))]
      have hd := (digitChar_spec (n % 10) (Nat.mod_lt n (by omega))).2.1
      show n / 10 * 10 + digitVal (digitChar (n % 10)) = n
      rw [hd]
      omega

theorem normalize_mk {l : List Char}
    (h : ∀ c ∈ l, isSpaceC c = false ∧ lowerC c = c) :
    normalize (String.mk l) = l := by
  unfold normalize
  have h1 : l.filter (fun c => !isSpaceC c) = l :=
    List.filter_eq_self.mpr (fun c hc => by simp [(h c hc).1])
  show (l.filter (fun c => !isSpaceC c)).map lowerC = l
  rw [h1]
  calc l.map lowerC = l.map id := List.map_congr_left (fun c hc => (h c hc).2)
  _ = l := List.map_id l

theorem normalize_ndmk (N M K : Nat) :
    normalize (ndmk N M K) = natReprL N ++ 'd' :: natReprL M ++ '+' :: natReprL K := by
  apply normalize_mk
  intro c hc
  rcases List.mem_append.mp hc with h1 | h2
  · rcases List.mem_append.mp h1 with h3 | h4
    · exact natReprL_plain N c h3
    · rcases List.mem_cons.mp h4 with h5 | h6
      · subst h5; exact ⟨by decide, by decide⟩
      · exact natReprL_plain M c h6
  · rcases List.mem_cons.mp h2 with h7 | h8
    · subst h7; exact ⟨by decide, by decide⟩
    · exact natReprL_plain K c h8

theorem parseTerm_dice_form (N M : Nat) (rest : List Char)
    (hrest : ∀ c cs, rest = c :: cs → isDigitC c = false) :
    parseTerm (natReprL N ++ 'd' :: (natReprL M ++ rest)) =
      if N < 1 then Except.error ⟨String.mk (natReprL N)⟩
      else if maxDiceCount < N then Except.error ⟨String.mk (natReprL N)⟩
      else if M < 2 then Except.error ⟨String.mk (natReprL M)⟩
      else Except.ok (Term.dice N M, rest) := by
  have h1 : takeDigits (natReprL N ++ 'd' :: (natReprL M ++ rest)) =
      (natReprL N, 'd' :: (natReprL M ++ rest)) :=
    takeDigits_append (natReprL_digits N)
      (by intro c cs h; injection h with hc _; subst hc; decide)
  have h2 : takeDigits (natReprL M ++ rest) = (natReprL M, rest) :=
    takeDigits_append (natReprL_digits M) hrest
  have hNe : (natReprL N).isEmpty = false := by
    cases hn : natReprL N with
    | nil => exact absurd hn (natReprL_ne_nil N)
    | cons a as => rfl
  have hMe : (natReprL M).isEmpty = false := by
    cases hn : natReprL M with
    | nil => exact absurd hn (natReprL_ne_nil M)
    | cons a as => rfl
  unfold parseTerm
  rw [h1]
  simp only [h2, hNe, hMe, digitsToNat_natReprL]
  simp

theorem parseTerm_const_nil (K : Nat) :
    parseTerm (natReprL K) = Except.ok (Term.const K, []) := by
  have h1 : takeDigits (natReprL K ++ []) = (natReprL K, []) :=
    takeDigits_append (natReprL_digits K) (by intro c cs h; cases h)
  rw [List.append_nil] at h1
  have hKe : (natReprL K).isEmpty = false := by
    cases hn : natReprL K with
    | nil => exact absurd hn (natReprL_ne_nil K)
    | cons a as => rfl
  unfold parseTerm
  rw [h1]
  simp only [hKe, digitsToNat_natReprL]
  simp

theorem parseRest_plus_nat (K fuel : Nat) :
    parseRest (fuel + 1) ('+' :: natReprL K) = Except.ok [⟨true, Term.const K⟩] := by
  unfold parseRest
  rw [parseTerm_const_nil]
  cases hn : natReprL K with
  | nil => exact absurd hn (natReprL_ne_nil K)
  | cons a as => simp [parseRest]

theorem parseAll_ndmk (N M K : Nat) :
    parseAll (natReprL N ++ 'd' :: (natReprL M ++ ('+' :: natReprL K))) =
      if N < 1 then Except.error ⟨String.mk (natReprL N)⟩
      else if maxDiceCount < N then Except.error ⟨String.mk (natReprL N)⟩
      else if M < 2 then Except.error ⟨String.mk (natReprL M)⟩
      else Except.ok [⟨true, Term.dice N M⟩, ⟨true, Term.const K⟩] := by
  have hp := parseTerm_dice_form N M ('+' :: natReprL K)
    (by intro c cs h; injection h with hc _; subst hc; decide)
  unfold parseAll
  rw [hp]
  by_cases hN1 : N < 1
  · simp [hN1]
  · by_cases hN2 : maxDiceCount < N
    · simp [hN1, hN2]
    · by_cases hM : M < 2
      · simp [hN1, hN2, hM]
      · simp only [if_neg hN1, if_neg hN2, if_neg hM]
        rw [show ('+' :: natReprL K).length = (natReprL K).length + 1 from rfl,
          parseRest_plus_nat]

theorem evaluate_ndmk (N M K : Nat) (rng : Nat → Nat) :
    evaluate (ndmk N M K) rng =
      if N < 1 then Except.error ⟨String.mk (natReprL N)⟩
      else if maxDiceCount < N then Except.error ⟨String.mk (natReprL N)⟩
      else if M < 2 then Except.error ⟨String.mk (natReprL M)⟩
      else Except.ok ⟨rollDice rng 0 N M, (K : Int),
        ((rollDice rng 0 N M).sum : Int) + K⟩ := by
  unfold evaluate
  rw [normalize_ndmk, List.append_assoc, List.cons_append, parseAll_ndmk]
  by_cases hN1 : N < 1
  · simp [hN1]
  · by_cases hN2 : maxDiceCount < N
    · simp [hN1, hN2]
    · by_cases hM : M < 2
      · simp [hN1, hN2, hM]
      · simp only [if_neg hN1, if_neg hN2, if_neg hM]
        simp [evalTerms]

/-! ## Claim theorems -/

/-- C1: for every valid `NdM+K` dice string and every injected randomness
source, `evaluate` succeeds with exactly `N` recorded die values, each in
`[1, M]`, drawn left-to-right (the `i`-th value comes from the `i`-th draw of
the source), with `total = sum of die values + K`; and — drawn in term order,
recorded unsigned — `evaluate "1d6-1d4"` records both face values positively
in the breakdown while subtracting the second from the total. -/
theorem evaluate_ndmk_correct (N M K : Nat) (rng : Nat → Nat)
    (h1 : 1 ≤ N) (h2 : N ≤ 1000) (h3 : 2 ≤ M) :
    ∃ r : RollResult,
      evaluate (ndmk N M K) rng = Except.ok r ∧
      r.rolls.length = N ∧
      (∀ v ∈ r.rolls, 1 ≤ v ∧ v ≤ M) ∧
      r.total = (r.rolls.sum : Int) + K ∧
      r.rolls = (List.range N).map (fun i => 1 + rng i % M) ∧
      evaluate "1d6-1d4" rng =
        Except.ok ⟨[1 + rng 0 % 6, 1 + rng 1 % 4], 0,
          ((1 + rng 0 % 6 : Nat) : Int) - ((1 + rng 1 % 4 : Nat) : Int)⟩ := by
  have hev := evaluate_ndmk N M K rng
  rw [if_neg (by omega), if_neg (by simp [maxDiceCount]; omega), if_neg (by omega)] at hev
  refine ⟨_, hev, ?_, ?_, ?_, ?_, ?_⟩
  · simp [rollDice]
  · intro v hv
    simp [rollDice] at hv
    obtain ⟨i, hi1, hi2⟩ := hv
    have hm : rng (0 + i) % M < M := Nat.mod_lt _ (by omega)
    have hm2 : rng i % M < M := Nat.mod_lt _ (by omega)
    omega
  · rfl
  · simp [rollDice]
  · have hp : parseAll (normalize "1d6-1d4") =
        Except.ok [⟨true, Term.dice 1 6⟩, ⟨false, Term.dice 1 4⟩] := rfl
    unfold evaluate
    rw [hp]
    simp [evalTerms, rollDice, List.range_succ]
    ring_nf

/-- C1 witness: the theorem instantiated at `2d6+3` with the constant-zero
randomness source. -/
theorem evaluate_ndmk_correct_witness :
    ∃ r : RollResult,
      evaluate (ndmk 2 6 3) (fun _ => 0) = Except.ok r ∧
      r.rolls.length = 2 ∧
      (∀ v ∈ r.rolls, 1 ≤ v ∧ v ≤ 6) ∧
      r.total = (r.rolls.sum : Int) + 3 :=
  match evaluate_ndmk_correct 2 6 3 (fun _ => 0)
    (by decide) (by decide) (by decide) with
  | ⟨r, ha, hb, hc, hd, _, _⟩ => ⟨r, ha, hb, hc, hd⟩

/-- C7: an omitted count defaults to 1 — `evaluate "d20"` is identical to
`evaluate "1d20"` for every injected randomness source. -/
theorem evaluate_d20_default_count (rng : Nat → Nat) :
    evaluate "d20" rng = evaluate "1d20" rng := by
  have h1 : parseAll (normalize "d20") = Except.ok [⟨true, Term.dice 1 20⟩] := rfl
  have h2 : parseAll (normalize "1d20") = Except.ok [⟨true, Term.dice 1 20⟩] := rfl
  unfold evaluate
  rw [h1, h2]

/-- C8: `evaluate` fails (with the `InvalidNotation`-style error, the only
failure kind its type admits) exactly on malformed input — the empty string,
a faces value below 2, a count above the sane bound 1000, and malformed text —
each time carrying the offending substring. -/
theorem evaluate_malformed_inputs (N1 N2 M1 M2 K1 K2 : Nat) (rng : Nat → Nat)
    (ha : 1 ≤ N1) (hb : N1 ≤ 1000) (hc : M1 < 2) (hd : 1000 < N2) :
    evaluate "" rng = Except.error ⟨""⟩ ∧
    evaluate (ndmk N1 M1 K1) rng = Except.error ⟨String.mk (natReprL M1)⟩ ∧
    evaluate (ndmk N2 M2 K2) rng = Except.error ⟨String.mk (natReprL N2)⟩ ∧
    evaluate "foo" rng = Except.error ⟨"foo"⟩ := by
  refine ⟨?_, ?_, ?_, ?_⟩
  · have hp : parseAll (normalize "") = Except.error ⟨""⟩ := rfl
    unfold evaluate
    rw [hp]
  · have hev := evaluate_ndmk N1 M1 K1 rng
    rw [if_neg (by omega), if_neg (by simp [maxDiceCount]; omega), if_pos hc] at hev
    exact hev
  · have hev := evaluate_ndmk N2 M2 K2 rng
    rw [if_neg (by omega), if_pos (by simp [maxDiceCount]; omega)] at hev
    exact hev
  · have hp : parseAll (normalize "foo") = Except.error ⟨"foo"⟩ := rfl
    unfold evaluate
    rw [hp]

/-- C8 witness: the theorem instantiated at `5d1` (faces below 2) and
`1001d6` (count above the bound). -/
theorem evaluate_malformed_inputs_witness :
    evaluate "" (fun _ => 0) = Except.error ⟨""⟩ ∧
    evaluate (ndmk 5 1 0) (fun _ => 0) = Except.error ⟨String.mk (natReprL 1)⟩ ∧
    evaluate (ndmk 1001 6 0) (fun _ => 0) = Except.error ⟨String.mk (natReprL 1001)⟩ ∧
    evaluate "foo" (fun _ => 0) = Except.error ⟨"foo"⟩ :=
  evaluate_malformed_inputs 5 1001 1 6 0 0 (fun _ => 0)
    (by decide) (by decide) (by decide) (by decide)

theorem lookupA_setA_self {κ α : Type} [DecidableEq κ]
    (l : List (κ × α)) (k : κ) (v0 v : α) (h : lookupA l k = some v0) :
    lookupA (setA l k v) k = some v := by
  induction l with
  | nil => simp [lookupA] at h
  | cons p rest ih =>
    obtain ⟨k1, v1⟩ := p
    by_cases hk : k1 = k
    · subst hk
      simp [lookupA, setA]
    · simp only [lookupA, setA, if_neg hk] at h ⊢
      exact ih h

theorem lookupA_setA_ne {κ α : Type} [DecidableEq κ]
    (l : List (κ × α)) (k k2 : κ) (v : α) (hne : k2 ≠ k) :
    lookupA (setA l k v) k2 = lookupA l k2 := by
  induction l with
  | nil => simp [setA]
  | cons p rest ih =>
    obtain ⟨k1, v1⟩ := p
    by_cases hk : k1 = k
    · subst hk
      have : ¬ (k1 = k2) := fun hc => hne hc.symm
      simp [lookupA, setA, this]
    · simp only [setA, if_neg hk, lookupA]
      by_cases hk2 : k1 = k2
      · simp [hk2]
      · simp [hk2, ih]

theorem removeOne_of_not_mem {inv : List String} {it : String} (h : it ∉ inv) :
    removeOne inv it = none := by
  induction inv with
  | nil => rfl
  | cons x xs ih =>
    simp only [List.mem_cons, not_or] at h
    have hx : ¬ (x = it) := fun hc => h.1 hc.symm
    simp [removeOne, hx, ih h.2]

theorem removeOne_mem {inv inv2 : List String} {it x : String}
    (h : removeOne inv it = some inv2) (hx : x ∈ inv2) : x ∈ inv := by
  induction inv generalizing inv2 with
  | nil => simp [removeOne] at h
  | cons y ys ih =>
    by_cases hy : y = it
    · simp only [removeOne, if_pos hy, Option.some.injEq] at h
      subst h
      exact List.mem_cons_of_mem y hx
    · simp only [removeOne, if_neg hy, Option.map_eq_some'] at h
      obtain ⟨z, hz, hzi⟩ := h
      subst hzi
      rcases List.mem_cons.mp hx with h1 | h1
      · exact h1 ▸ List.mem_cons_self y ys
      · exact List.mem_cons_of_mem y (ih hz h1)

theorem removeAll_start_none (its : List String) :
    its.foldl (fun acc it => acc.bind (fun i => removeOne i it)) none = none := by
  induction its with
  | nil => rfl
  | cons it rest ih =>
    show rest.foldl (fun acc it => acc.bind (fun i => removeOne i it)) none = none
    exact ih

theorem removeAll_none {inv : List String} {its : List String}
    (h : ∃ it ∈ its, it ∉ inv) : removeAll inv its = none := by
  induction its generalizing inv with
  | nil => simp at h
  | cons it rest ih =>
    obtain ⟨x, hx, hxa⟩ := h
    show (List.foldl (fun acc it => acc.bind (fun i => removeOne i it))
      ((some inv).bind (fun i => removeOne i it)) rest) = none
    rcases List.mem_cons.mp hx with h1 | h1
    · subst h1
      rw [show (some inv).bind (fun i => removeOne i x) = removeOne inv x from rfl,
        removeOne_of_not_mem hxa]
      exact removeAll_start_none rest
    · cases hr : (some inv).bind (fun i => removeOne i it) with
      | none => exact removeAll_start_none rest
      | some inv2 =>
        have hr2 : removeOne inv it = some inv2 := hr
        have hxa2 : x ∉ inv2 := fun hc => hxa (removeOne_mem hr2 hc)
        exact ih ⟨x, h1, hxa2⟩

/-- C2: for a present character, a patch that would drive gold negative or
remove an absent inventory item fails with `InvalidPatch` and returns the
store unchanged — the whole update is atomic, so the character's gold,
inventory and stats are exactly as before. -/
theorem update_invalid_patch_atomic (store : CharStore) (id : String)
    (c : Character) (p : Patch) (h : lookupA store id = some c)
    (hbad : goldAfter c p < 0 ∨ ∃ it ∈ p.removeItems, it ∉ c.inventory) :
    ∃ f r, updateChar store id p = (Except.error (StoreError.invalidPatch f r), store) ∧
      lookupA (updateChar store id p).2 id = some c := by
  unfold updateChar
  rw [h]
  by_cases hg : goldAfter c p < 0
  · refine ⟨"gold", "gold cannot go negative", ?_, ?_⟩
    · simp [applyPatch, hg]
    · simp [applyPatch, hg, h]
  · have habs : ∃ it ∈ p.removeItems, it ∉ c.inventory := hbad.resolve_left hg
    have hrm := removeAll_none habs
    refine ⟨"inventory", "removed item not present", ?_, ?_⟩
    · simp [applyPatch, hg, hrm]
    · simp [applyPatch, hg, hrm, h]

/-- C2 witness: removing 100 gold from a character holding 5 fails with
`InvalidPatch` and leaves the store untouched. -/
theorem update_invalid_patch_atomic_witness :
    ∃ f r, updateChar [("aria", ⟨"Aria", [("health", 10)], ["sword"], 5, "tavern"⟩)]
        "aria" ⟨[], [], [], [], some (-100), none⟩ =
      (Except.error (StoreError.invalidPatch f r),
       [("aria", ⟨"Aria", [("health", 10)], ["sword"], 5, "tavern"⟩)]) ∧
      lookupA (updateChar [("aria", ⟨"Aria", [("health", 10)], ["sword"], 5, "tavern"⟩)]
        "aria" ⟨[], [], [], [], some (-100), none⟩).2 "aria" =
        some ⟨"Aria", [("health", 10)], ["sword"], 5, "tavern"⟩ :=
  update_invalid_patch_atomic _ "aria" _ _ rfl (Or.inl (by decide))

/-- C4: for a present character, `move` resolves the direction via the map
graph from the character's current location; on success exactly that
character's location is set to the neighbor and the neighbor is returned; on
any failure the store is returned unchanged; and in every case no other
character record changes. -/
theorem move_char_frame (g : MapGraph) (store : CharStore) (id dir : String)
    (c : Character) (h : lookupA store id = some c) :
    (∀ loc, neighbor g c.location dir = Except.ok loc →
      moveChar g store id dir = (Except.ok loc, setA store id { c with location := loc.id }) ∧
      lookupA (moveChar g store id dir).2 id = some { c with location := loc.id }) ∧
    (∀ e, neighbor g c.location dir = Except.error e →
      moveChar g store id dir = (Except.error e, store)) ∧
    (∀ id2, id2 ≠ id → lookupA (moveChar g store id dir).2 id2 = lookupA store id2) := by
  refine ⟨?_, ?_, ?_⟩
  · intro loc hl
    refine ⟨?_, ?_⟩
    · simp [moveChar, h, hl]
    · simp [moveChar, h, hl]
      exact lookupA_setA_self store id c _ h
  · intro e he
    simp [moveChar, h, he]
  · intro id2 hne
    cases hn : neighbor g c.location dir with
    | error e => simp [moveChar, h, hn]
    | ok loc =>
      simp [moveChar, h, hn]
      exact lookupA_setA_ne store id id2 _ hne

/-- C4 witness: moving "aria" north from the tavern in a two-room graph
updates only her record, and an invalid direction leaves the store as it
was. -/
theorem move_char_frame_witness :
    moveChar [("tavern", ⟨"tavern", "The Tavern", "", [("north", "market")]⟩),
              ("market", ⟨"market", "The Market", "", []⟩)]
        [("aria", ⟨"Aria", [], [], 0, "tavern"⟩)] "aria" "north" =
      (Except.ok ⟨"market", "The Market", "", []⟩,
       setA [("aria", ⟨"Aria", [], [], 0, "tavern"⟩)] "aria"
         ⟨"Aria", [], [], 0, "market"⟩) ∧
    lookupA (moveChar [("tavern", ⟨"tavern", "The Tavern", "", [("north", "market")]⟩),
              ("market", ⟨"market", "The Market", "", []⟩)]
        [("aria", ⟨"Aria", [], [], 0, "tavern"⟩)] "aria" "north").2 "aria" =
      some ⟨"Aria", [], [], 0, "market"⟩ :=
  (move_char_frame
    [("tavern", ⟨"tavern", "The Tavern", "", [("north", "market")]⟩),
     ("market", ⟨"market", "The Market", "", []⟩)]
    [("aria", ⟨"Aria", [], [], 0, "tavern"⟩)] "aria" "north"
    ⟨"Aria", [], [], 0, "tavern"⟩ rfl).1
    ⟨"market", "The Market", "", []⟩ rfl

/-- C5: `create_session` followed by `get_session_state` on the returned id
yields the empty participant set and the configured default starting
location. -/
theorem create_then_get_state (m : Manager) (store : CharStore) (now : Nat) :
    getSessionState (createSession m now).2 store (createSession m now).1 =
      Except.ok ⟨[], defaultStartLocation⟩ := by
  simp [createSession, getSessionState, lookupA]

/-- C6: joining the same character to the same session twice leaves the
session exactly as after the first join — the second call is a no-op success,
not an error. -/
theorem join_idempotent (m m2 : Manager) (store : CharStore) (sid : Nat)
    (cid : String) (h : joinSession m store sid cid = Except.ok m2) :
    joinSession m2 store sid cid = Except.ok m2 := by
  cases hs : lookupA m.sessions sid with
  | none => simp [joinSession, hs] at h
  | some s =>
    cases hc : lookupA store cid with
    | none => simp [joinSession, hs, hc] at h
    | some c0 =>
      simp only [joinSession, hs, hc] at h
      by_cases hmem : cid ∈ s.participants
      · rw [if_pos hmem] at h
        injection h with hm
        subst hm
        simp only [joinSession, hs, hc]
        rw [if_pos hmem]
      · rw [if_neg hmem] at h
        injection h with hm
        subst hm
        have hs2 : lookupA (setA m.sessions sid
            { s with participants := cid :: s.participants }) sid =
            some { s with participants := cid :: s.participants } :=
          lookupA_setA_self m.sessions sid s _ hs
        simp [joinSession, hs2, hc]

/-- C6 witness: joining "aria" to session 0 twice equals joining once. -/
theorem join_idempotent_witness :
    joinSession ⟨[(0, ⟨7, ["aria"], none⟩)], 1⟩
        [("aria", ⟨"Aria", [], [], 0, "tavern"⟩)] 0 "aria" =
      Except.ok ⟨[(0, ⟨7, ["aria"], none⟩)], 1⟩ :=
  join_idempotent ⟨[(0, ⟨7, [], none⟩)], 1⟩ ⟨[(0, ⟨7, ["aria"], none⟩)], 1⟩
    [("aria", ⟨"Aria", [], [], 0, "tavern"⟩)] 0 "aria" rfl

/-- C3 (code-bug evidence): with both `ANTHROPIC_API_KEY` and
`OPENAI_API_KEY` set to non-empty values, `OPENROUTER_API_KEY` unset and
`LLM_PROVIDER` unset, `detectModelConfig` returns the `openai` provider:
its "default to Anthropic when both available" branch additionally requires
an OpenRouter key, so the call falls through to the no-key default.  The
README documents "When both API keys are set, Anthropic is used by
default". -/
theorem detect_both_keys_yields_openai :
    detectModelConfig ⟨none, none, some "anthropic-key", some "openai-key", none⟩ =
      (Provider.openai, none) ∧
    truthy (some "anthropic-key") = true ∧
    truthy (some "openai-key") = true := by
  refine ⟨?_, by decide, by decide⟩
  rfl

/-- C9: `chat` appends the user's `HumanMessage` to the history before the
model is invoked, so when the agent stream construction or iteration throws,
the error propagates and the history afterwards still holds that human
message — with no assistant messages appended. -/
theorem chat_history_on_error (history : List ChatMsg) (message e : String) :
    chatStep history message (Except.error e) =
      (Except.error e, history ++ [ChatMsg.human message]) ∧
    (chatStep history message (Except.error e)).2.filter isAiMsg =
      history.filter isAiMsg ∧
    ChatMsg.human message ∈ (chatStep history message (Except.error e)).2 := by
  refine ⟨rfl, ?_, ?_⟩
  · simp [chatStep, isAiMsg, List.filter_append]
  · simp [chatStep]

/-- Property loop with an array `required`: `includes` never throws, so a
successful run preserves the property keys in order and marks a property
optional exactly when its key is not an element of the array. -/
theorem convProps_arr {reqArr : List Json} {props : List (String × Json)}
    {shape : List (String × Zod × Bool)}
    (h : convProps (Json.arr reqArr) props = Except.ok shape) :
    shape.map (fun e => e.1) = props.map (fun e => e.1) ∧
    ∀ k z b, (k, z, b) ∈ shape → (b = true ↔ reqContains reqArr k = false) := by
  induction props generalizing shape with
  | nil =>
    rw [convProps] at h
    injection h with h
    subst h
    simp
  | cons p rest ih =>
    obtain ⟨k, v⟩ := p
    cases hz : jsonSchemaToZod v with
    | error e =>
      simp only [convProps, hz] at h
      simp at h
    | ok z =>
      simp only [convProps, hz, jsIncludes] at h
      cases hr : convProps (Json.arr reqArr) rest with
      | error e => rw [hr] at h; cases h
      | ok shape2 =>
        rw [hr] at h
        injection h with h
        subst h
        obtain ⟨ih1, ih2⟩ := ih hr
        refine ⟨by simp [ih1], ?_⟩
        intro k2 z2 b2 hmem
        rcases List.mem_cons.mp hmem with h1 | h1
        · simp only [Prod.mk.injEq] at h1
          obtain ⟨e1, e2, e3⟩ := h1
          subst e1
          rw [e3]
          simp
        · exact ih2 k2 z2 b2 h1

/-- C10: `jsonSchemaToZod` returns `z.any()` without throwing for every
non-object JSON value and for every object schema whose `type` is not one of
the six recognised type strings; and for an object schema with a
`properties` object whose `required` resolves to an array (absent or falsy
`required` reads as the empty array), a successful conversion yields a Zod
object whose properties appear in order, each optional exactly when its key
is absent from the `required` array. -/
theorem json_schema_to_zod_spec :
    (jsonSchemaToZod Json.null = Except.ok Zod.any) ∧
    (∀ b, jsonSchemaToZod (Json.bool b) = Except.ok Zod.any) ∧
    (∀ n, jsonSchemaToZod (Json.num n) = Except.ok Zod.any) ∧
    (∀ s, jsonSchemaToZod (Json.str s) = Except.ok Zod.any) ∧
    (∀ xs, jsonSchemaToZod (Json.arr xs) = Except.ok Zod.any) ∧
    (∀ fields, knownType (lookupA fields "type") = false →
      jsonSchemaToZod (Json.obj fields) = Except.ok Zod.any) ∧
    (∀ fields props reqArr shape,
      lookupA fields "type" = some (Json.str "object") →
      lookupA fields "properties" = some (Json.obj props) →
      requiredOf fields = Json.arr reqArr →
      convProps (Json.arr reqArr) props = Except.ok shape →
      jsonSchemaToZod (Json.obj fields) = Except.ok (Zod.zobject shape (descOf fields)) ∧
      shape.map (fun e => e.1) = props.map (fun e => e.1) ∧
      ∀ k z b, (k, z, b) ∈ shape →
        (b = true ↔ reqContains reqArr k = false)) := by
  refine ⟨by simp [jsonSchemaToZod], fun b => by simp [jsonSchemaToZod],
    fun n => by simp [jsonSchemaToZod], fun s => by simp [jsonSchemaToZod],
    fun xs => by simp [jsonSchemaToZod], ?_, ?_⟩
  · intro fields hk
    rw [jsonSchemaToZod]
    split
    · next heq => rw [heq] at hk; simp [knownType] at hk
    · next heq => rw [heq] at hk; simp [knownType] at hk
    · next heq => rw [heq] at hk; simp [knownType] at hk
    · next heq => rw [heq] at hk; simp [knownType] at hk
    · next heq => rw [heq] at hk; simp [knownType] at hk
    · next heq => rw [heq] at hk; simp [knownType] at hk
    · rfl
  · intro fields props reqArr shape hty hpr hreq hcv
    refine ⟨?_, (convProps_arr hcv).1, (convProps_arr hcv).2⟩
    rw [jsonSchemaToZod, hty]
    simp only []
    split
    · next props2 heq =>
      have hpp : props2 = props := by
        rw [hpr] at heq
        injection heq with h
        injection h with h2
        exact h2.symm
      rw [hpp, hreq, hcv]
    · next hx =>
      exact (hx props hpr).elim

/-- C10 witness: a schema of type `object` with properties `"a"` (type
`string`, listed in `required`) and `"b"` (empty schema, not listed):
the conversion succeeds, `"a"` is non-optional, `"b"` is optional. -/
theorem json_schema_to_zod_spec_witness :
    jsonSchemaToZod (Json.obj
        [("type", Json.str "object"),
         ("properties", Json.obj [("a", Json.obj [("type", Json.str "string")]),
                                  ("b", Json.obj [])]),
         ("required", Json.arr [Json.str "a"])]) =
      Except.ok (Zod.zobject
        [("a", Zod.zstring (Json.str ""), false), ("b", Zod.any, true)]
        (descOf
          [("type", Json.str "object"),
           ("properties", Json.obj [("a", Json.obj [("type", Json.str "string")]),
                                    ("b", Json.obj [])]),
           ("required", Json.arr [Json.str "a"])])) ∧
    [("a", Zod.zstring (Json.str ""), false), ("b", Zod.any, true)].map
        (fun e => e.1) =
      [("a", Json.obj [("type", Json.str "string")]), ("b", Json.obj [])].map
        (fun e => e.1) ∧
    ∀ k z b, (k, z, b) ∈
        [("a", Zod.zstring (Json.str ""), false), ("b", Zod.any, true)] →
      (b = true ↔ reqContains [Json.str "a"] k = false) :=
  json_schema_to_zod_spec.2.2.2.2.2.2
    [("type", Json.str "object"),
     ("properties", Json.obj [("a", Json.obj [("type", Json.str "string")]),
                              ("b", Json.obj [])]),
     ("required", Json.arr [Json.str "a"])]
    [("a", Json.obj [("type", Json.str "string")]), ("b", Json.obj [])]
    [Json.str "a"]
    [("a", Zod.zstring (Json.str ""), false), ("b", Zod.any, true)]
    rfl rfl rfl
    (by simp [convProps, jsonSchemaToZod, jsIncludes, reqContains, jsonEqStr,
      descOf, requiredOf, lookupA, truthyJson])

end LlMud
